import Mathlib

/-!
Verification of the `hg` command-server engine (`src/hgserve.ts`).

The development shallowly embeds the protocol-relevant parts of the source:

* byte-level reads mirroring Node's `Buffer.readUInt8`, `readUInt32BE`,
  `readInt32BE` and `Buffer.slice` (which clamps, never throws);
* the `HgCommandServer` mutable fields as an explicit `ServerState`;
* the `stdout` data listener of `attachListeners` (the channel
  demultiplexer loop) as a recursive function `demuxGo` over the byte
  list of one `data` arrival, producing the state after the arrival and
  the list of observable actions (promise resolutions, line-input
  requests, server stops).  Out-of-range buffer reads, which throw a
  `RangeError` in Node, are modelled as an error result;
* `enqueueCommand` / `runcommand`, `stop`, the `exit` listener, the
  first-`data` handshake handler of `spawnCommandServerProcess`
  together with `parseCapabilitiesAndEncoding`, and the environment
  construction of `spawnHgServer`.

Promises are modelled by identity tokens: a `PipelineCommand` carries the
identity of its deferred result, and a settlement of that deferred is an
explicit `DemuxEvent`.  Text decoding (`Buffer.toString`) is modelled
byte-wise via `Char.ofNat`, exact for the ASCII data used throughout.
-/

/-- Node `buf.readUInt32BE`: big-endian unsigned 32-bit read of four bytes. -/
def u32be (a b c d : Nat) : Nat :=
  (a % 256) * 16777216 + (b % 256) * 65536 + (c % 256) * 256 + (d % 256)

/-- Node `buf.readInt32BE`: big-endian signed 32-bit read of four bytes
(two's complement). -/
def i32be (a b c d : Nat) : Int :=
  if u32be a b c d < 2147483648 then (u32be a b c d : Int)
  else (u32be a b c d : Int) - 4294967296

/-- Big-endian 4-byte encoding of a 32-bit value, as written by the server. -/
def be32 (n : Nat) : List Nat :=
  [n / 16777216 % 256, n / 65536 % 256, n / 256 % 256, n % 256]

/-- Byte-wise text decoding, modelling `Buffer.toString` on ASCII data. -/
def decodeBytes (bs : List Nat) : String :=
  String.mk (bs.map (fun b => Char.ofNat (b % 256)))

/-- Model of `.replace(/\0/g, "")`: drop every NUL character. -/
def stripNul (s : String) : String :=
  String.mk (s.data.filter (fun c => c != Char.ofNat 0))

/-- A queued command (`PipelineCommand` in the source).  The deferred
result object is modelled by its identity token `result`. -/
structure PipelineCommand where
  cmd : String
  args : List String
  result : Nat
deriving DecidableEq, Repr

/-- Model of `IExecutionResult`.  The demultiplexer obtains the exit code with
`readUInt32BE`, so in the code it is a nonnegative integer below `2^32`. -/
structure IExecutionResult where
  exitCode : Nat
  stdout : String
  stderr : String
deriving DecidableEq, Repr

/-- The mutable fields of `HgCommandServer` together with the closure
variables of `attachListeners` that survive across `data` events:
`running` models `serverProcess !== undefined`, `fresh` the supply of
deferred identities for `defer()`, and `outputBodies` / `errorBodies`
the accumulator arrays of the stdout listener closure. -/
structure ServerState where
  running : Bool
  commandQueue : List PipelineCommand
  stopWhenQueueEmpty : Bool
  outputBodies : List String
  errorBodies : List String
  fresh : Nat
deriving DecidableEq, Repr

/-- Observable actions of the engine: settling a command's deferred,
issuing a line-input interaction, or tearing the server down. -/
inductive DemuxEvent where
  | resolve (c : PipelineCommand) (r : IExecutionResult)
  | reject (c : PipelineCommand) (reason : String)
  | lineRequest (stdoutSoFar : String) (len : Nat)
  | stopped
deriving DecidableEq, Repr

/-- Failure modes of one stdout `data` listener invocation.
`rangeError` models the `RangeError` Node throws when `readUInt8` or
`readUInt32BE` reads past the end of the buffer; `outOfFuel` is an
artifact of the fuel-indexed loop below and is unreachable when the
loop is started with fuel equal to the buffer length. -/
inductive DemuxError where
  | rangeError
  | outOfFuel
deriving DecidableEq, Repr

/-- Writes to the server's stdin performed by the engine. -/
inductive WriteEv where
  | sendCommand (cmd : String) (args : List String)
  | sendLineInput (response : String)
deriving DecidableEq, Repr

abbrev DemuxResult := Except DemuxError (ServerState × List DemuxEvent)

/-- Prepend already-produced events to the result of the rest of the loop. -/
def withEvents (evs : List DemuxEvent) : DemuxResult → DemuxResult
  | .ok (st, evs2) => .ok (st, evs ++ evs2)
  | .error e => .error e

/-- Model of `HgCommandServer.stop(force?)` (source lines 74–96): no-op when no
process is running; with a non-empty queue and no `force` it only sets
`stopWhenQueueEmpty`; otherwise it detaches the streams and clears
`serverProcess` (modelled as `running := false`). -/
def stop (force : Bool) (st : ServerState) : ServerState :=
  if st.running = false then st
  else if st.commandQueue ≠ [] ∧ force = false then
    { st with stopWhenQueueEmpty := true }
  else
    { st with running := false }

/-- One stdout `data` listener invocation of `attachListeners`
(source lines 238–293), as a loop over the arrival's bytes.

Mirrors the source literally: each iteration reads the 1-byte channel
tag and the 4-byte big-endian length, advances by 5, then
* tag `r`: reads the exit code with `readUInt32BE` (unsigned), advances
  by `length`, joins the accumulators into a result, calls `reset()`,
  shifts the queue head and resolves it if present, and, when
  `stopWhenQueueEmpty` holds and the queue is now empty, calls
  `stop()` and returns, abandoning the remaining bytes;
* tag `L`: joins the output accumulator, requests a line of input of
  the given length, and advances by 0 further bytes;
* any other tag: takes the body with `slice` (clamped to the buffer),
  decodes it, appends it to the output accumulator for `o`, the error
  accumulator for `e`, and nowhere otherwise, and advances by `length`.

The closure variable `exitCode` of the source is set only in the `r`
branch and consumed and reset in the same iteration, so it is inlined
there.  The fuel argument is the recursion measure; every iteration
consumes at least 5 bytes, so starting with fuel = buffer length (as
`demuxLoop` does) the `outOfFuel` case is unreachable. -/
def demuxGo : Nat → List Nat → ServerState → DemuxResult
  | _, [], st => .ok (st, [])
  | 0, _ :: _, _ => .error .outOfFuel
  | fuel + 1, chanByte :: tail, st =>
    match tail with
    | l0 :: l1 :: l2 :: l3 :: body =>
      let chan := Char.ofNat (chanByte % 256)
      let length := u32be l0 l1 l2 l3
      if chan = 'r' then
        match body with
        | c0 :: c1 :: c2 :: c3 :: _ =>
          let exitCode := u32be c0 c1 c2 c3
          let rest := body.drop length
          let result : IExecutionResult :=
            ⟨exitCode, String.join st.outputBodies, String.join st.errorBodies⟩
          let st1 : ServerState := { st with outputBodies := [], errorBodies := [] }
          match st1.commandQueue with
          | [] =>
            if st1.stopWhenQueueEmpty then .ok (stop false st1, [.stopped])
            else demuxGo fuel rest st1
          | c :: q =>
            let st2 : ServerState := { st1 with commandQueue := q }
            if st2.stopWhenQueueEmpty ∧ q = [] then
              .ok (stop false st2, [.resolve c result, .stopped])
            else
              withEvents [.resolve c result] (demuxGo fuel rest st2)
        | _ => .error .rangeError
      else if chan = 'L' then
        withEvents [.lineRequest (String.join st.outputBodies) length]
          (demuxGo fuel body st)
      else
        let bodyStr := decodeBytes (body.take length)
        let st1 : ServerState :=
          if chan = 'o' then { st with outputBodies := st.outputBodies ++ [bodyStr] }
          else if chan = 'e' then { st with errorBodies := st.errorBodies ++ [bodyStr] }
          else st
        demuxGo fuel (body.drop length) st1
    | _ => .error .rangeError

/-- One stdout `data` arrival: the source's `while (offset < data.length)`
loop over the arrival's buffer. -/
def demuxLoop (data : List Nat) (st : ServerState) : DemuxResult :=
  demuxGo data.length data st

/-- A sequence of separate stdout `data` arrivals, in order.  The source
keeps no carry-over buffer, so each arrival is decoded from scratch. -/
def demuxArrivals : List (List Nat) → ServerState → DemuxResult
  | [], st => .ok (st, [])
  | d :: ds, st =>
    match demuxLoop d st with
    | .ok (st1, evs) => withEvents evs (demuxArrivals ds st1)
    | .error e => .error e

/-- Model of `enqueueCommand` (source lines 104–116): with a live process, push a
fresh `PipelineCommand` and write the command frame to stdin; otherwise
return `Promise.reject("HGCommandServer is not started")` with no queue
mutation and no write. -/
def enqueueCommand (st : ServerState) (cmd : String) (args : List String) :
    ServerState × List WriteEv × Except String PipelineCommand :=
  if st.running then
    let command : PipelineCommand := ⟨cmd, args, st.fresh⟩
    ({ st with commandQueue := st.commandQueue ++ [command], fresh := st.fresh + 1 },
     [.sendCommand cmd args], .ok command)
  else
    (st, [], .error "HGCommandServer is not started")

/-- Model of `runcommand(...args)` (source lines 99–101). -/
def runcommand (st : ServerState) (args : List String) :
    ServerState × List WriteEv × Except String PipelineCommand :=
  enqueueCommand st "runcommand" args

/-- The state reached after enqueueing a list of `runcommand` calls. -/
def enqueueAll : ServerState → List (List String) → ServerState
  | st, [] => st
  | st, args :: rest => enqueueAll (runcommand st args).1 rest

/-- The `exit` listener installed by `attachListeners`
(source lines 230–234): log, `stop(true)`, then `start(hgPath)` again.
The restart is modelled on its successful path: the process is spawned
anew and `attachListeners` installs fresh (empty) accumulators.  The
command queue is not touched and no deferred is settled, so the event
list is empty. -/
def onServerExit (st : ServerState) : ServerState × List DemuxEvent :=
  let st1 := stop true st
  ({ st1 with running := true, outputBodies := [], errorBodies := [] }, [])

/-- Character-list matcher used below: does `p` begin `s`? -/
def startsWith : List Char → List Char → Bool
  | [], _ => true
  | _ :: _, [] => false
  | a :: p, b :: s => a == b && startsWith p s

/-- One attempt of the first regex
`/capabilities: (.*?)\nencoding: (.*?)$/` at a fixed start, on the text
`t` that follows the literal `"capabilities: "`.  The first lazy group
cannot contain a newline, so it runs exactly to the first newline; the
second group must reach the end of the string without a newline. -/
def capMatch1 (t : List Char) : Option (List Char × List Char) :=
  let g1 := t.takeWhile (fun c => c != Char.ofNat 10)
  match t.drop g1.length with
  | nl :: r =>
    if nl == Char.ofNat 10 ∧ startsWith "encoding: ".data r then
      let g2 := r.drop 10
      if g2.all (fun c => c != Char.ofNat 10) then some (g1, g2) else none
    else none
  | [] => none

/-- One attempt of the fallback regex
`/capabilities: (.*?)\nencoding: (.*?)\n(.*?)$/g`: the encoding group
runs to the first newline after `"encoding: "`, and one further
newline-free segment must close the string. -/
def capMatch2 (t : List Char) : Option (List Char × List Char) :=
  let g1 := t.takeWhile (fun c => c != Char.ofNat 10)
  match t.drop g1.length with
  | nl :: r =>
    if nl == Char.ofNat 10 ∧ startsWith "encoding: ".data r then
      let u := r.drop 10
      let g2 := u.takeWhile (fun c => c != Char.ofNat 10)
      match u.drop g2.length with
      | nl2 :: v =>
        if nl2 == Char.ofNat 10 ∧ v.all (fun c => c != Char.ofNat 10) then
          some (g1, g2)
        else none
      | [] => none
    else none
  | [] => none

/-- Leftmost-match search of `RegExp.exec`: try the matcher at every
occurrence of the literal `"capabilities: "`, left to right. -/
def capSearch (m : List Char → Option (List Char × List Char)) :
    List Char → Option (List Char × List Char)
  | [] => none
  | c :: rest =>
    if startsWith "capabilities: ".data (c :: rest) then
      match m ((c :: rest).drop 14) with
      | some r => some r
      | none => capSearch m rest
    else capSearch m rest

/-- Model of JavaScript `String.prototype.split` with a one-character
separator: splits at every occurrence, keeping empty segments, and
yields one (empty) segment for the empty string. -/
def splitChars (sep : Char) : List Char → List (List Char)
  | [] => [[]]
  | c :: rest =>
    match splitChars sep rest with
    | h :: t => if c == sep then [] :: h :: t else (c :: h) :: t
    | [] => if c == sep then [[], []] else [[c]]

/-- Model of `parseCapabilitiesAndEncoding` (source lines 183–198): try the first
regex, then the fallback; on success split the capability tokens on
single spaces (`caps.split(" ")`); on failure `throw new Error("Unable
to parse capabilities: " + data)`, modelled as the error case. -/
def parseCapabilitiesAndEncoding (data : String) :
    Except String (List String × String) :=
  match capSearch capMatch1 data.data with
  | some (caps, enc) => .ok ((splitChars ' ' caps).map String.mk, String.mk enc)
  | none =>
    match capSearch capMatch2 data.data with
    | some (caps, enc) => .ok ((splitChars ' ' caps).map String.mk, String.mk enc)
    | none => .error ("Unable to parse capabilities: " ++ data)

/-- Possible fates of the promise returned by
`spawnCommandServerProcess` once the first stdout `data` event fires:
the executor's `c` resolves it, `e` rejects it, and an exception thrown
inside the listener leaves it unsettled forever (the throw escapes to
the event emitter as an uncaught exception). -/
inductive StartOutcome where
  | resolved (capabilities : List String) (encoding : String)
  | rejected (reason : String)
  | uncaught (msg : String)
  | rangeError
deriving DecidableEq, Repr

/-- The `stdout.once("data", ...)` handshake handler of
`spawnCommandServerProcess` (source lines 128–149): read the first
frame's tag and length, slice the body, interpret it with `readInt32BE`
(signed) for tag `r` and as NUL-stripped text otherwise, then parse
capabilities and encoding.  `parseCapabilitiesAndEncoding` throwing
propagates out of the listener, so neither `c` nor `e` runs: the start
promise is never settled (`uncaught`).  A missing `runcommand`
capability calls `e(...)` (and then `c(...)`, which loses the race). -/
def onFirstStdoutData (data : List Nat) : StartOutcome :=
  match data with
  | b :: l0 :: l1 :: l2 :: l3 :: rest =>
    let chan := Char.ofNat (b % 256)
    let bodyData := rest.take (u32be l0 l1 l2 l3)
    let bodyOpt : Option String :=
      if chan = 'r' then
        match bodyData with
        | c0 :: c1 :: c2 :: c3 :: _ => some (toString (i32be c0 c1 c2 c3))
        | _ => none
      else
        some (stripNul (decodeBytes bodyData))
    match bodyOpt with
    | none => .rangeError
    | some body =>
      match parseCapabilitiesAndEncoding body with
      | .error msg => .uncaught msg
      | .ok (capabilities, encoding) =>
        if capabilities.contains "runcommand" then .resolved capabilities encoding
        else .rejected "runcommand not available"
  | _ => .rangeError

/-- A JavaScript-object assignment `obj[k] = v` on an ordered key list:
an existing key keeps its position and gets the new value, a new key is
appended. -/
def objInsert (obj : List (String × String)) (k v : String) :
    List (String × String) :=
  if obj.any (fun p => p.1 == k) then
    obj.map (fun p => if p.1 == k then (k, v) else p)
  else obj ++ [(k, v)]

/-- Object lookup. -/
def objGet (obj : List (String × String)) (k : String) : Option String :=
  (obj.find? (fun p => p.1 == k)).map (fun p => p.2)

/-- The spawn environment of `spawnHgServer` (source line 170):
`{ "HGENCODING": "UTF-8", ...process.env }`.  Spread semantics: start
from the literal `HGENCODING` entry, then assign every entry of the
inherited environment in order, later assignments overriding. -/
def processEnvOf (inherited : List (String × String)) :
    List (String × String) :=
  inherited.foldl (fun o kv => objInsert o kv.1 kv.2)
    (objInsert [] "HGENCODING" "UTF-8")

/-- Frames of the server→client wire protocol that the demultiplexer
consumes without suspending on user interaction: output, error and
debug frames carry a length-prefixed body; a result frame carries a
4-byte exit code. -/
inductive Frame where
  | output (body : List Nat)
  | error (body : List Nat)
  | debug (body : List Nat)
  | result (code : Nat)
deriving DecidableEq, Repr

/-- Well-formedness of a frame as emitted by the server: the length
field is 32 bits. -/
def wfFrame : Frame → Prop
  | .output b => b.length < 4294967296
  | .error b => b.length < 4294967296
  | .debug b => b.length < 4294967296
  | .result c => c < 4294967296

instance : (f : Frame) → Decidable (wfFrame f)
  | .output b => inferInstanceAs (Decidable (b.length < 4294967296))
  | .error b => inferInstanceAs (Decidable (b.length < 4294967296))
  | .debug b => inferInstanceAs (Decidable (b.length < 4294967296))
  | .result c => inferInstanceAs (Decidable (c < 4294967296))

/-- Wire encoding of one frame: tag byte, 4-byte big-endian length,
body (a result frame's body is its 4-byte exit code). -/
def encodeFrame : Frame → List Nat
  | .output b => 111 :: (be32 b.length ++ b)
  | .error b => 101 :: (be32 b.length ++ b)
  | .debug b => 100 :: (be32 b.length ++ b)
  | .result c => 114 :: (be32 4 ++ be32 c)

/-- Wire encoding of a frame sequence. -/
def encodeFrames : List Frame → List Nat
  | [] => []
  | f :: fs => encodeFrame f ++ encodeFrames fs

/-- The exit codes of the result frames of a stream, in order. -/
def resultCodes (fs : List Frame) : List Nat :=
  fs.filterMap (fun f => match f with | .result c => some c | _ => none)

/-- The command/exit-code pairs of the resolution events of a run,
in order of occurrence. -/
def resolvedPairs (evs : List DemuxEvent) : List (PipelineCommand × Nat) :=
  evs.filterMap (fun e =>
    match e with | .resolve c r => some (c, r.exitCode) | _ => none)

/-- Frame-level account of one loop iteration of the demultiplexer on a
well-formed frame when no deferred stop is pending. -/
def frameStep (f : Frame) (st : ServerState) : ServerState × List DemuxEvent :=
  match f with
  | .output b => ({ st with outputBodies := st.outputBodies ++ [decodeBytes b] }, [])
  | .error b => ({ st with errorBodies := st.errorBodies ++ [decodeBytes b] }, [])
  | .debug _ => (st, [])
  | .result code =>
    let result : IExecutionResult :=
      ⟨code, String.join st.outputBodies, String.join st.errorBodies⟩
    let st1 : ServerState := { st with outputBodies := [], errorBodies := [] }
    match st1.commandQueue with
    | [] => (st1, [])
    | c :: q => ({ st1 with commandQueue := q }, [.resolve c result])

/-- Frame-level account of a whole arrival. -/
def foldFrames : List Frame → ServerState → ServerState × List DemuxEvent
  | [], st => (st, [])
  | f :: fs, st =>
    let p := frameStep f st
    let p2 := foldFrames fs p.1
    (p2.1, p.2 ++ p2.2)

/-- The commands minted by a run of `runcommand` calls starting from a
given deferred-identity supply. -/
def queuedCommands : Nat → List (List String) → List PipelineCommand
  | _, [] => []
  | n, args :: rest => ⟨"runcommand", args, n⟩ :: queuedCommands (n + 1) rest

/-- A running server with one enqueued `runcommand status` command. -/
def stOne : ServerState :=
  ⟨true, [⟨"runcommand", ["status"], 0⟩], false, [], [], 1⟩

/-- C4: with exactly one command enqueued, an output frame with body
"hello" followed by a result frame with exit code 0 resolves that
command's deferred with stdout "hello", stderr "" and exit code 0, and
both accumulators are reset (empty) for the next command. -/
theorem hello_then_result_resolves_command :
    demuxLoop ([111, 0, 0, 0, 5, 104, 101, 108, 108, 111] ++
               [114, 0, 0, 0, 4, 0, 0, 0, 0]) stOne =
      .ok (⟨true, [], false, [], [], 1⟩,
           [.resolve ⟨"runcommand", ["status"], 0⟩ ⟨0, "hello", ""⟩]) := rfl

/-- A running server with an empty command queue and no pending stop. -/
def stRun : ServerState := ⟨true, [], false, [], [], 0⟩

/-- C2: the demultiplexer keeps no carry-over buffer, so splitting one
valid frame across two arrivals does not produce the dispatch of the
whole frame.  The frame `('o', 5, "hello")` delivered whole appends
"hello"; delivered as the 7 bytes `6f 00 00 00 05 68 65` followed by
`6c 6c 6f`, the first arrival appends the truncated body "he" (the
remaining bytes are not buffered), and the second arrival is
misinterpreted as a new frame header whose 4-byte length read runs past
the buffer, the `RangeError` Node throws there. -/
theorem split_frame_not_reassembled :
    demuxLoop [111, 0, 0, 0, 5, 104, 101, 108, 108, 111] stRun =
        .ok (⟨true, [], false, ["hello"], [], 0⟩, []) ∧
      demuxLoop [111, 0, 0, 0, 5, 104, 101] stRun =
        .ok (⟨true, [], false, ["he"], [], 0⟩, []) ∧
      demuxArrivals [[111, 0, 0, 0, 5, 104, 101], [108, 108, 111]] stRun =
        .error .rangeError :=
  ⟨rfl, rfl, rfl⟩

/-- C5: the demultiplexer reads the result frame's 4-byte body with
`readUInt32BE`, an unsigned read: the body `ff ff ff ff` resolves the
open command with exit code 4294967295, whereas the big-endian signed
interpretation the spec prescribes (and the handshake's own
`readInt32BE` uses) yields -1. -/
theorem result_exit_code_read_unsigned :
    demuxLoop [114, 0, 0, 0, 4, 255, 255, 255, 255] stOne =
        .ok (⟨true, [], false, [], [], 1⟩,
             [.resolve ⟨"runcommand", ["status"], 0⟩ ⟨4294967295, "", ""⟩]) ∧
      i32be 255 255 255 255 = -1 ∧ ((4294967295 : Int) ≠ -1) :=
  ⟨rfl, by decide, by decide⟩

/-- C3: the `exit` listener settles no deferred at all — it logs, tears
the old handle down and restarts, leaving every pending command in the
queue with its promise neither resolved nor rejected (no `ServerCrash`
rejection is delivered). -/
theorem crash_restart_rejects_nothing (st : ServerState) :
    (onServerExit st).2 = [] ∧
      (onServerExit st).1.commandQueue = st.commandQueue := by
  refine ⟨rfl, ?_⟩
  simp only [onServerExit, stop]
  split_ifs <;> rfl

/-- C8: `spawnHgServer` builds the child environment as
`{ "HGENCODING": "UTF-8", ...process.env }`, so the literal comes first
and the inherited environment is spread over it: an inherited
`HGENCODING=latin1` overrides the UTF-8 entry instead of being forced
to UTF-8. -/
theorem hgencoding_not_forced :
    objGet (processEnvOf [("HGENCODING", "latin1")]) "HGENCODING" = some "latin1" ∧
      (some "latin1" : Option String) ≠ some "UTF-8" :=
  ⟨rfl, by decide⟩

/-- The first stdout burst of a server whose body "garbage" matches
neither capabilities regex: tag `o`, length 7, body `garbage`. -/
def garbageHandshake : List Nat :=
  [111, 0, 0, 0, 7, 103, 97, 114, 98, 97, 103, 101]

/-- C7: when the handshake body matches neither regex,
`parseCapabilitiesAndEncoding` throws inside the `data` listener; the
throw escapes the listener as an uncaught exception, so neither the
resolve nor the reject callback of the start promise runs — start is
not rejected with a `SpawnError`, it hangs unsettled. -/
theorem unparsable_capabilities_start_unsettled :
    onFirstStdoutData garbageHandshake =
        .uncaught "Unable to parse capabilities: garbage" ∧
      ∀ reason, onFirstStdoutData garbageHandshake ≠ .rejected reason :=
  ⟨rfl, fun _ h => nomatch h⟩

/-- C9: `enqueueCommand` with no live server process returns the
rejection `"HGCommandServer is not started"` immediately, mutating
nothing: the queue (and all other state) is unchanged and nothing is
written to the server's stdin. -/
theorem enqueue_not_running_rejects (st : ServerState) (args : List String)
    (h : st.running = false) :
    runcommand st args = (st, [], .error "HGCommandServer is not started") := by
  simp [runcommand, enqueueCommand, h]

/-- A stopped server state. -/
def stStopped : ServerState := ⟨false, [], false, [], [], 0⟩

theorem enqueue_not_running_rejects_witness :
    stStopped.running = false ∧
      runcommand stStopped ["status"] =
        (stStopped, [], .error "HGCommandServer is not started") :=
  ⟨rfl, enqueue_not_running_rejects stStopped ["status"] rfl⟩

/-- C6 counterexample: a frame with the unknown channel tag `x` (0x78),
decoded while a command is open, raises nothing and rejects nothing:
the demultiplexer consumes the frame in its output/error else-branch,
appends to no accumulator, and leaves the state (queue included)
unchanged — `getChanName`, which would throw on an unknown tag, is
never called by the listener. -/
theorem unknown_tag_consumed_without_rejection :
    demuxLoop [120, 0, 0, 0, 2, 97, 98] stOne = .ok (stOne, []) := rfl

/-- A running server with an empty queue and the stop-when-empty flag
set. -/
def stFlagged : ServerState := ⟨true, [], true, [], [], 0⟩

/-- C10 counterexample: a result frame decoded with an empty queue while
`stopWhenQueueEmpty` is set does not continue decoding the remaining
bytes of the arrival: the listener stops the server and returns,
discarding the following output frame (the accumulator stays empty). -/
theorem result_with_stop_flag_discards_rest :
    demuxLoop ([114, 0, 0, 0, 4, 0, 0, 0, 9] ++ [111, 0, 0, 0, 1, 104]) stFlagged =
      .ok (⟨false, [], true, [], [], 0⟩, [.stopped]) := rfl

theorem withEvents_nil (r : DemuxResult) : withEvents [] r = r := by
  cases r with
  | ok p => cases p; simp [withEvents]
  | error e => rfl

theorem withEvents_ok (evs : List DemuxEvent) (st : ServerState)
    (evs2 : List DemuxEvent) :
    withEvents evs (.ok (st, evs2)) = .ok (st, evs ++ evs2) := rfl

theorem u32be_be32 (n : Nat) (h : n < 4294967296) :
    u32be (n / 16777216 % 256) (n / 65536 % 256) (n / 256 % 256) (n % 256)
      = n := by
  simp only [u32be]
  omega

/-- A frame whose channel tag is none of `r`, `L`, `o`, `e` is consumed
by the else-branch of the listener: the length-prefixed body is
skipped, no accumulator changes, no event is produced, and decoding
continues right after it. -/
theorem demuxGo_skip (fuel chanByte l0 l1 l2 l3 : Nat) (body : List Nat)
    (st : ServerState)
    (hr : Char.ofNat (chanByte % 256) ≠ 'r')
    (hL : Char.ofNat (chanByte % 256) ≠ 'L')
    (ho : Char.ofNat (chanByte % 256) ≠ 'o')
    (he : Char.ofNat (chanByte % 256) ≠ 'e') :
    demuxGo (fuel + 1) (chanByte :: l0 :: l1 :: l2 :: l3 :: body) st =
      demuxGo fuel (body.drop (u32be l0 l1 l2 l3)) st := by
  simp only [demuxGo]
  rw [if_neg hr, if_neg hL, if_neg ho, if_neg he]

/-- One listener iteration on a whole output frame: the body is decoded
and appended to the output accumulator, and decoding continues after
the frame. -/
theorem demuxGo_step_output (fuel : Nat) (b rest : List Nat) (st : ServerState)
    (hb : b.length < 4294967296) :
    demuxGo (fuel + 1) (111 :: (be32 b.length ++ (b ++ rest))) st =
      demuxGo fuel rest
        { st with outputBodies := st.outputBodies ++ [decodeBytes b] } := by
  simp [demuxGo, be32, u32be_be32 b.length hb, List.take_left, List.drop_left]

/-- One listener iteration on a whole error frame: the body is decoded
and appended to the error accumulator, and decoding continues after
the frame. -/
theorem demuxGo_step_error (fuel : Nat) (b rest : List Nat) (st : ServerState)
    (hb : b.length < 4294967296) :
    demuxGo (fuel + 1) (101 :: (be32 b.length ++ (b ++ rest))) st =
      demuxGo fuel rest
        { st with errorBodies := st.errorBodies ++ [decodeBytes b] } := by
  simp [demuxGo, be32, u32be_be32 b.length hb, List.take_left, List.drop_left]

/-- One listener iteration on a whole result frame when no deferred
stop is pending: the accumulators are joined into a result and reset,
the queue head (if any) is shifted and resolved, and decoding continues
after the frame. -/
theorem demuxGo_step_result (fuel code : Nat) (rest : List Nat)
    (st : ServerState) (hc : code < 4294967296)
    (hflag : st.stopWhenQueueEmpty = false) :
    demuxGo (fuel + 1) (114 :: (be32 4 ++ (be32 code ++ rest))) st =
      withEvents (frameStep (.result code) st).2
        (demuxGo fuel rest (frameStep (.result code) st).1) := by
  cases hq : st.commandQueue with
  | nil =>
    simp [demuxGo, be32, frameStep, hq, hflag, u32be_be32 code hc,
      (show u32be 0 0 0 4 = 4 from rfl), withEvents_nil]
  | cons c q =>
    simp [demuxGo, be32, frameStep, hq, hflag, u32be_be32 code hc,
      (show u32be 0 0 0 4 = 4 from rfl), withEvents]

theorem withEvents_ok_pair (evs : List DemuxEvent)
    (p : ServerState × List DemuxEvent) :
    withEvents evs (.ok p) = .ok (p.1, evs ++ p.2) := by
  cases p; rfl

theorem frameStep_flag (f : Frame) (st : ServerState) :
    (frameStep f st).1.stopWhenQueueEmpty = st.stopWhenQueueEmpty := by
  cases f with
  | result code => simp only [frameStep]; cases st.commandQueue <;> rfl
  | output b => rfl
  | error b => rfl
  | debug b => rfl

theorem encodeFrame_length (f : Frame) : 5 ≤ (encodeFrame f).length := by
  cases f <;> simp [encodeFrame, be32]

/-- Byte-level/frame-level correspondence: on the encoding of a
well-formed frame sequence, one listener invocation with sufficient
fuel (which `demuxLoop` supplies) succeeds and produces exactly the
frame-level fold, provided no deferred stop is pending. -/
theorem demuxGo_encodeFrames (fs : List Frame) : ∀ (fuel : Nat) (st : ServerState),
    (encodeFrames fs).length ≤ fuel → st.stopWhenQueueEmpty = false →
    (∀ f ∈ fs, wfFrame f) →
    demuxGo fuel (encodeFrames fs) st = .ok (foldFrames fs st) := by
  induction fs with
  | nil =>
    intro fuel st _ _ _
    cases fuel <;> simp [encodeFrames, foldFrames, demuxGo]
  | cons f fs ih =>
    intro fuel st hlen hflag hwf
    have hwfhead : wfFrame f := hwf f (by simp)
    have hwftail : ∀ g ∈ fs, wfFrame g := fun g hg => hwf g (by simp [hg])
    have h5 : 5 ≤ (encodeFrame f).length := encodeFrame_length f
    have hlen' : (encodeFrame f).length + (encodeFrames fs).length ≤ fuel := by
      simpa [encodeFrames, List.length_append] using hlen
    cases fuel with
    | zero => omega
    | succ m =>
      have htail : (encodeFrames fs).length ≤ m := by omega
      cases f with
      | output b =>
        have hstep := demuxGo_step_output m b (encodeFrames fs) st hwfhead
        calc demuxGo (m + 1) (encodeFrames (Frame.output b :: fs)) st
            = demuxGo (m + 1) (111 :: (be32 b.length ++ (b ++ encodeFrames fs))) st := by
              simp [encodeFrames, encodeFrame, List.append_assoc]
          _ = demuxGo m (encodeFrames fs)
                { st with outputBodies := st.outputBodies ++ [decodeBytes b] } := hstep
          _ = .ok (foldFrames (Frame.output b :: fs) st) := by
              rw [ih m _ htail (by simpa using hflag) hwftail]
              simp [foldFrames, frameStep]
      | error b =>
        have hstep := demuxGo_step_error m b (encodeFrames fs) st hwfhead
        calc demuxGo (m + 1) (encodeFrames (Frame.error b :: fs)) st
            = demuxGo (m + 1) (101 :: (be32 b.length ++ (b ++ encodeFrames fs))) st := by
              simp [encodeFrames, encodeFrame, List.append_assoc]
          _ = demuxGo m (encodeFrames fs)
                { st with errorBodies := st.errorBodies ++ [decodeBytes b] } := hstep
          _ = .ok (foldFrames (Frame.error b :: fs) st) := by
              rw [ih m _ htail (by simpa using hflag) hwftail]
              simp [foldFrames, frameStep]
      | debug b =>
        calc demuxGo (m + 1) (encodeFrames (Frame.debug b :: fs)) st
            = demuxGo (m + 1) (100 :: (b.length / 16777216 % 256 :: b.length / 65536 % 256 ::
                b.length / 256 % 256 :: b.length % 256 :: (b ++ encodeFrames fs))) st := by
              simp [encodeFrames, encodeFrame, be32, List.append_assoc]
          _ = demuxGo m ((b ++ encodeFrames fs).drop
                (u32be (b.length / 16777216 % 256) (b.length / 65536 % 256)
                  (b.length / 256 % 256) (b.length % 256))) st :=
              demuxGo_skip m 100 _ _ _ _ _ st (by decide) (by decide) (by decide) (by decide)
          _ = .ok (foldFrames (Frame.debug b :: fs) st) := by
              rw [u32be_be32 b.length hwfhead, List.drop_left,
                ih m st htail hflag hwftail]
              simp [foldFrames, frameStep]
      | result code =>
        have hstep := demuxGo_step_result m code (encodeFrames fs) st hwfhead hflag
        calc demuxGo (m + 1) (encodeFrames (Frame.result code :: fs)) st
            = demuxGo (m + 1) (114 :: (be32 4 ++ (be32 code ++ encodeFrames fs))) st := by
              simp [encodeFrames, encodeFrame, List.append_assoc]
          _ = withEvents (frameStep (.result code) st).2
                (demuxGo m (encodeFrames fs) (frameStep (.result code) st).1) := hstep
          _ = .ok (foldFrames (Frame.result code :: fs) st) := by
              rw [ih m _ htail (by rw [frameStep_flag]; exact hflag) hwftail,
                withEvents_ok_pair]
              simp [foldFrames]

/-- FIFO pairing at the frame level: the resolutions of a run pair the
queued commands, in queue order, with the exit codes of the result
frames, in stream order (`zip` truncates at the shorter side). -/
theorem foldFrames_resolvedPairs (fs : List Frame) : ∀ st : ServerState,
    resolvedPairs (foldFrames fs st).2 =
      st.commandQueue.zip (resultCodes fs) := by
  induction fs with
  | nil => intro st; simp [foldFrames, resolvedPairs, resultCodes]
  | cons f fs ih =>
    intro st
    cases f with
    | output b =>
      simp [foldFrames, frameStep, resolvedPairs, resultCodes,
        List.filterMap_append] at ih ⊢
      exact ih _
    | error b =>
      simp [foldFrames, frameStep, resolvedPairs, resultCodes,
        List.filterMap_append] at ih ⊢
      exact ih _
    | debug b =>
      simp [foldFrames, frameStep, resolvedPairs, resultCodes,
        List.filterMap_append] at ih ⊢
      exact ih _
    | result code =>
      cases hq : st.commandQueue with
      | nil =>
        have h2 := ih { st with commandQueue := [], outputBodies := [], errorBodies := [] }
        simp [resolvedPairs, resultCodes] at h2
        simp [foldFrames, frameStep, hq, resolvedPairs, resultCodes,
          List.filterMap_append]
        exact h2
      | cons c q =>
        have h2 := ih { st with commandQueue := q, outputBodies := [], errorBodies := [] }
        simp [resolvedPairs, resultCodes] at h2
        simp [foldFrames, frameStep, hq, resolvedPairs, resultCodes,
          List.filterMap_append]
        exact h2

/-- Enqueueing `runcommand` calls on a running server appends one
`PipelineCommand` per call, in call order, with consecutive fresh
deferred identities, and touches nothing else. -/
theorem enqueueAll_spec (argss : List (List String)) : ∀ st : ServerState,
    st.running = true →
    (enqueueAll st argss).commandQueue
        = st.commandQueue ++ queuedCommands st.fresh argss ∧
      (enqueueAll st argss).stopWhenQueueEmpty = st.stopWhenQueueEmpty ∧
      (enqueueAll st argss).running = true := by
  induction argss with
  | nil => intro st h; simp [enqueueAll, queuedCommands, h]
  | cons args rest ih =>
    intro st h
    have step : (runcommand st args).1 =
        { st with commandQueue := st.commandQueue ++ [⟨"runcommand", args, st.fresh⟩],
                  fresh := st.fresh + 1 } := by
      simp [runcommand, enqueueCommand, h]
    obtain ⟨ihq, ihf, ihr⟩ := ih
      { st with commandQueue := st.commandQueue ++ [⟨"runcommand", args, st.fresh⟩],
                fresh := st.fresh + 1 } h
    refine ⟨?_, ?_, ?_⟩
    · rw [show enqueueAll st (args :: rest) = enqueueAll (runcommand st args).1 rest
        from rfl, step, ihq]
      simp [queuedCommands]
    · rw [show enqueueAll st (args :: rest) = enqueueAll (runcommand st args).1 rest
        from rfl, step, ihf]
    · rw [show enqueueAll st (args :: rest) = enqueueAll (runcommand st args).1 rest
        from rfl, step, ihr]

/-- C1: starting from a running server with an empty queue and no
deferred stop, enqueue any sequence of commands through `runcommand`,
then deliver any well-formed frame stream.  The listener succeeds, and
the sequence of resolutions it performs is exactly the enqueued
commands, in enqueue order, each paired with the exit code of its own
(same-index) result frame — FIFO correlation with no reordering. -/
theorem runcommands_resolve_in_fifo_order (st0 : ServerState)
    (argss : List (List String)) (frames : List Frame)
    (hrun : st0.running = true) (hq : st0.commandQueue = [])
    (hflag : st0.stopWhenQueueEmpty = false)
    (hwf : ∀ f ∈ frames, wfFrame f) :
    ∃ stFin evs,
      demuxLoop (encodeFrames frames) (enqueueAll st0 argss) = .ok (stFin, evs) ∧
      resolvedPairs evs =
        (queuedCommands st0.fresh argss).zip (resultCodes frames) := by
  obtain ⟨hQ, hF, _⟩ := enqueueAll_spec argss st0 hrun
  have h1 := demuxGo_encodeFrames frames (encodeFrames frames).length
    (enqueueAll st0 argss) le_rfl (by rw [hF, hflag]) hwf
  refine ⟨(foldFrames frames (enqueueAll st0 argss)).1,
    (foldFrames frames (enqueueAll st0 argss)).2, h1, ?_⟩
  rw [foldFrames_resolvedPairs, hQ, hq, List.nil_append]

theorem runcommands_resolve_in_fifo_order_witness :
    stRun.running = true ∧ stRun.commandQueue = [] ∧
      stRun.stopWhenQueueEmpty = false ∧
      (∀ f ∈ ([.output [104, 105], .result 0, .result 3] : List Frame), wfFrame f) ∧
      ∃ stFin evs,
        demuxLoop (encodeFrames [.output [104, 105], .result 0, .result 3])
            (enqueueAll stRun [["status"], ["log"]]) = .ok (stFin, evs) ∧
        resolvedPairs evs =
          (queuedCommands stRun.fresh [["status"], ["log"]]).zip
            (resultCodes [.output [104, 105], .result 0, .result 3]) :=
  ⟨rfl, rfl, rfl, by decide,
    runcommands_resolve_in_fifo_order stRun [["status"], ["log"]]
      [.output [104, 105], .result 0, .result 3] rfl rfl rfl (by decide)⟩

/-- C6 (amended): a decoded frame whose channel tag is none of
`o`, `e`, `r`, `L` is consumed silently — its length-prefixed body is
skipped, no `ProtocolError` is raised, no deferred is settled (no event
at all), and no state changes; decoding continues right after the
frame.  (`getChanName`, which would throw on an unknown tag, is dead
code: the listener never calls it.) -/
theorem unknown_tag_skipped_without_error (fuel chanByte l0 l1 l2 l3 : Nat)
    (body : List Nat) (st : ServerState)
    (hr : Char.ofNat (chanByte % 256) ≠ 'r')
    (hL : Char.ofNat (chanByte % 256) ≠ 'L')
    (ho : Char.ofNat (chanByte % 256) ≠ 'o')
    (he : Char.ofNat (chanByte % 256) ≠ 'e') :
    demuxGo (fuel + 1) (chanByte :: l0 :: l1 :: l2 :: l3 :: body) st =
      demuxGo fuel (body.drop (u32be l0 l1 l2 l3)) st :=
  demuxGo_skip fuel chanByte l0 l1 l2 l3 body st hr hL ho he

theorem unknown_tag_skipped_without_error_witness :
    Char.ofNat (120 % 256) ≠ 'r' ∧ Char.ofNat (120 % 256) ≠ 'L' ∧
      Char.ofNat (120 % 256) ≠ 'o' ∧ Char.ofNat (120 % 256) ≠ 'e' ∧
      demuxGo (2 + 1) (120 :: 0 :: 0 :: 0 :: 2 :: [97, 98]) stOne =
        demuxGo 2 ([97, 98].drop (u32be 0 0 0 2)) stOne :=
  ⟨by decide, by decide, by decide, by decide,
    unknown_tag_skipped_without_error 2 120 0 0 0 2 [97, 98] stOne
      (by decide) (by decide) (by decide) (by decide)⟩

/-- C10 (amended): a result frame decoded while the command queue is
empty is consumed without error: nothing is resolved or rejected (no
event), the accumulators are reset, and — provided no deferred stop is
pending — decoding continues with the remaining bytes of the arrival.
(When `stopWhenQueueEmpty` is set, the listener instead stops the
server and discards the rest, see the counterexample.) -/
theorem result_empty_queue_resets_and_continues (fuel c0 c1 c2 c3 : Nat)
    (rest : List Nat) (st : ServerState)
    (hq : st.commandQueue = []) (hflag : st.stopWhenQueueEmpty = false) :
    demuxGo (fuel + 1) (114 :: 0 :: 0 :: 0 :: 4 :: (c0 :: c1 :: c2 :: c3 :: rest)) st =
      demuxGo fuel rest { st with outputBodies := [], errorBodies := [] } := by
  simp [demuxGo, hq, hflag, (show u32be 0 0 0 4 = 4 from rfl)]

theorem result_empty_queue_resets_and_continues_witness :
    stRun.commandQueue = [] ∧ stRun.stopWhenQueueEmpty = false ∧
      demuxGo (1 + 1) (114 :: 0 :: 0 :: 0 :: 4 :: (0 :: 0 :: 0 :: 7 :: [100, 0, 0, 0, 0])) stRun =
        demuxGo 1 [100, 0, 0, 0, 0] { stRun with outputBodies := [], errorBodies := [] } :=
  ⟨rfl, rfl,
    result_empty_queue_resets_and_continues 1 0 0 0 7 [100, 0, 0, 0, 0] stRun rfl rfl⟩

/-- Sanity check of the regex model against the spec scenario: the
canonical handshake body parses to the two capability tokens and the
UTF-8 encoding. -/
theorem parse_capabilities_scenario :
    parseCapabilitiesAndEncoding
        "capabilities: getencoding runcommand\nencoding: UTF-8" =
      .ok (["getencoding", "runcommand"], "UTF-8") := rfl
